import Mathlib

/-
Verification of the FPL player-model / squad-selector core
(src/fpl_player_model.py) against its natural-language specification.

Conventions of the shallow embedding:
 * pandas float cells are modelled as `Option ℚ`: `none` is NaN/NA, `some q`
   a finite value.  All arithmetic used by the program (+, *, /, comparisons,
   min, max) is exact on ℚ.
 * A DataFrame is a list of typed rows.  Columns the code accesses
   unconditionally are structure fields (the code would raise a KeyError on
   tables without them; only the Player Model Builder stage models that error
   path, via the `hasWebName` flag, because claim C3 exercises it).  Columns
   the code explicitly tests for with `"col" in df.columns` are modelled by
   boolean presence flags (`hasGW`, `hasNextOpponent`, `hasOpponentTeam`,
   `hasGWPoints`).
 * pandas `sort_values` with a single key and `ascending=False` computes a
   stable ascending argsort and reverses it (pandas `nargsort`); for the
   list sizes appearing in every concrete input below the numpy kernel is
   insertion sort, which is stable.  It is modelled as
   `pandasSortDesc key l = (sortK key l).reverse` with `sortK` a stable
   insertion sort.  A multi-key `sort_values` goes through pandas
   `lexsort_indexer`, which is stable and handles per-key direction without
   a global reverse; it is modelled as a composition of stable sorts,
   secondary key first.
 * pandas groupby iterates groups in sorted key order; the embedding uses
   first-appearance order (`dedupFirst`).  No modelled claim depends on the
   order of group keys, only on per-key contents.
 * `sum` aggregation over a group skips NaN and returns 0 for an all-NaN
   group (pandas default `min_count=0`); `mean` skips NaN and is NaN for an
   all-NaN group; `nunique` counts distinct non-NaN values.
 * Division of two NaN-able columns is `qDiv`: NaN if an operand is NaN.
   pandas produces ±inf/NaN for a zero denominator; that case is modelled as
   undefined (`none`) — no claim below reaches it (a team with zero observed
   periods has no period rows at all, so its rates come from NaN operands,
   not a zero denominator).
-/

namespace FPLSpec

/-! ### Generic list helpers -/

/-- First-appearance deduplication (order of pandas groupby keys is sorted;
no modelled property depends on key order, only on the set of keys). -/
def dedupFirst (l : List String) : List String :=
  l.foldl (fun acc t => if acc.contains t then acc else acc ++ [t]) []

/-- Association-list lookup, first match wins (models a Python dict built
with unique keys, read with `.get`). -/
def lookupA {α : Type} (l : List (String × α)) (k : String) : Option α :=
  (l.find? (fun p => p.1 == k)).map (fun p => p.2)

/-- Minimum of a list of rationals, `none` on the empty list
(pandas `Series.min` skipna semantics are obtained by applying this to the
list of defined values). -/
def minL : List ℚ → Option ℚ
  | [] => none
  | h :: t => some (t.foldl min h)

/-- Maximum of a list of rationals, `none` on the empty list. -/
def maxL : List ℚ → Option ℚ
  | [] => none
  | h :: t => some (t.foldl max h)

/-- Stable insertion of `x` into a list sorted ascending by `key`:
`x` is placed before the first strictly greater element, hence after all
elements with an equal key. -/
def insertK {α : Type} (key : α → ℚ) (x : α) : List α → List α
  | [] => [x]
  | h :: t => if key x ≤ key h then x :: h :: t else h :: insertK key x t

/-- Stable insertion sort, ascending by `key` (the element order of numpy's
stable kernels: equal keys keep input order). -/
def sortK {α : Type} (key : α → ℚ) : List α → List α
  | [] => []
  | h :: t => insertK key h (sortK key t)

/-- pandas `sort_values(by=k, ascending=False)` for a single key: pandas
`nargsort` argsorts ascending and reverses the indexer, so equal keys come
out in reversed input order. -/
def pandasSortDesc {α : Type} (key : α → ℚ) (l : List α) : List α :=
  (sortK key l).reverse

/-! ### Numeric helpers (pandas aggregation semantics) -/

/-- pandas groupby `sum`: skips NaN, 0 for an all-NaN group. -/
def optSum (l : List (Option ℚ)) : ℚ := (l.filterMap id).sum

/-- pandas groupby `mean`: skips NaN, NaN for an all-NaN group. -/
def optMean (l : List (Option ℚ)) : Option ℚ :=
  let v := l.filterMap id
  if v.isEmpty then none else some (v.sum / (v.length : ℚ))

/-- pandas `nunique`: number of distinct non-NaN values. -/
def nuniqueQ (l : List (Option ℚ)) : ℕ := (l.filterMap id).dedup.length

/-- Elementwise division of NaN-able values: NaN if an operand is NaN.
A zero denominator, which pandas turns into ±inf/NaN, is modelled as
undefined; no claim exercises it (see the header comment). -/
def qDiv (a b : Option ℚ) : Option ℚ :=
  match a, b with
  | some x, some y => if y = 0 then none else some (x / y)
  | _, _ => none

/-- `v > c` where `v` may be NaN: any comparison with NaN is False. -/
def optGT : Option ℚ → ℚ → Bool
  | some v, c => decide (c < v)
  | none, _ => false

/-- `v >= c` where `v` may be NaN: any comparison with NaN is False. -/
def optGE : Option ℚ → ℚ → Bool
  | some v, c => decide (c ≤ v)
  | none, _ => false

/-- `safe_div` from fpl_player_model.py:
`a / b if pd.notnull(a) and pd.notnull(b) and b != 0 else np.nan`. -/
def safe_div (a b : Option ℚ) : Option ℚ :=
  match a, b with
  | some x, some y => if y = 0 then none else some (x / y)
  | _, _ => none

/-! ### Data model -/

/-- One row of the merged per-gameweek table (`merged_gws.csv`): the columns
the core reads.  `Minutes`, `Starts`, `xGI` are aggregated into
`Recent_Minutes` / `Recent_Starts` / `Recent_xGI`, which no downstream
computation or claim reads, so they are not carried. -/
structure GwRow where
  team : String
  webName : String
  goals : Option ℚ
  assist : Option ℚ
  cs : Option ℚ
  gc : Option ℚ
  xg : Option ℚ
  xgc : Option ℚ
  gwPoints : Option ℚ
  gw : Option ℚ
  nextOpponent : Option String
  opponentTeam : Option String
deriving DecidableEq, Inhabited

/-- The merged gameweek table with the presence flags the code tests
(`"GW" in columns` etc.); `hasWebName` models the one required column whose
absence claim C3 exercises. -/
structure MergedGws where
  rows : List GwRow
  hasGW : Bool
  hasNextOpponent : Bool
  hasOpponentTeam : Bool
  hasWebName : Bool
  hasGWPoints : Bool
deriving DecidableEq, Inhabited

/-- One row of the season summary (`top_50_players.csv`): the fields the core
reads.  The season aggregate columns merged into the team model
(Season_Goals etc.) are written to the output and never read afterwards, so
they are not carried. -/
structure T50Row where
  webName : String
  team : Option String
  position : Option String
  cost : Option ℚ
  form : Option ℚ
  totalPoints : Option ℚ
  totalMinutes : Option ℚ
  seasonXgi : Option ℚ
deriving DecidableEq, Inhabited

/-- The season-summary table.  `hasSeasonCols` models the code's test
`{"Team", "Season_Goals"}.issubset(top50.columns)` guarding the outer merge
of season totals into the team model. -/
structure Top50 where
  rows : List T50Row
  hasSeasonCols : Bool
deriving DecidableEq, Inhabited

/-! ### Team Index Builder (`build_team_model`) -/

/-- Intermediate per-team aggregation row (`team_stats` merged outer with the
season summary): `none` fields are the NaN cells that the outer merge puts on
teams appearing only in the season summary. -/
structure TeamRow where
  team : String
  goalsSum : Option ℚ
  assistSum : Option ℚ
  csSum : Option ℚ
  gcSum : Option ℚ
  gwPointsSum : Option ℚ
  xgMean : Option ℚ
  xgcMean : Option ℚ
  nMatches : Option ℚ
deriving DecidableEq, Inhabited

def teamsOfGws (m : MergedGws) : List String := dedupFirst (m.rows.map (fun r => r.team))

def teamsOfTop50 (t : Top50) : List String := dedupFirst (t.rows.filterMap (fun r => r.team))

/-- The aggregation row of a team present in the gameweek table: sums of
Goals/Assist/CS/GC/GW Points, means of xG/xGC, and `Matches` = distinct GW
count when the GW column exists, group size otherwise. -/
def statRow (m : MergedGws) (t : String) : TeamRow :=
  let g := m.rows.filter (fun r => r.team == t)
  { team := t
    goalsSum := some (optSum (g.map (fun r => r.goals)))
    assistSum := some (optSum (g.map (fun r => r.assist)))
    csSum := some (optSum (g.map (fun r => r.cs)))
    gcSum := some (optSum (g.map (fun r => r.gc)))
    gwPointsSum := some (optSum (g.map (fun r => r.gwPoints)))
    xgMean := optMean (g.map (fun r => r.xg))
    xgcMean := optMean (g.map (fun r => r.xgc))
    nMatches := some (if m.hasGW then (nuniqueQ (g.map (fun r => r.gw)) : ℚ) else (g.length : ℚ)) }

/-- The all-NaN row the outer merge creates for a team present only in the
season summary. -/
def naStatRow (t : String) : TeamRow :=
  { team := t, goalsSum := none, assistSum := none, csSum := none, gcSum := none
    gwPointsSum := none, xgMean := none, xgcMean := none, nMatches := none }

def teamStats (m : MergedGws) : List TeamRow := (teamsOfGws m).map (statRow m)

/-- `team_stats` outer-merged with the season summary teams (the merge runs
only when the summary has a Team and Season_Goals column): left rows first,
then right-only teams. -/
def mergedTeamRows (m : MergedGws) (t50 : Top50) : List TeamRow :=
  if t50.hasSeasonCols then
    teamStats m ++
      ((teamsOfTop50 t50).filter (fun z => !((teamsOfGws m).contains z))).map naStatRow
  else teamStats m

def TeamRow.goalsPerMatch (r : TeamRow) : Option ℚ := qDiv r.goalsSum r.nMatches
def TeamRow.assistsPerMatch (r : TeamRow) : Option ℚ := qDiv r.assistSum r.nMatches
def TeamRow.gcPerMatch (r : TeamRow) : Option ℚ := qDiv r.gcSum r.nMatches
def TeamRow.pointsPerMatch (r : TeamRow) : Option ℚ := qDiv r.gwPointsSum r.nMatches

/-- `Attack_Index = Goals_per_Match * 0.6 + xG * 0.4` computed after
`fillna(0)` on both columns. -/
def attackIndexOf (r : TeamRow) : ℚ :=
  (TeamRow.goalsPerMatch r).getD 0 * 0.6 + r.xgMean.getD 0 * 0.4

/-- `Defense_Index = (1/(1+GC_per_Match))*0.6 + (1/(1+xGC))*0.4` after
`fillna(0)`; a zero denominator (pandas inf) is modelled as undefined and is
unreachable for the non-negative data of every claim. -/
def defenseIndexOf (r : TeamRow) : Option ℚ :=
  let g := (TeamRow.gcPerMatch r).getD 0
  let x := r.xgcMean.getD 0
  if 1 + g = 0 ∨ 1 + x = 0 then none
  else some ((1 / (1 + g)) * 0.6 + (1 / (1 + x)) * 0.4)

/-- `merged_gws["GW"].max()` when the column exists: NaN for an empty or
all-NaN column. -/
def maxGWOf (m : MergedGws) : Option ℚ :=
  if m.hasGW then maxL (m.rows.filterMap (fun r => r.gw)) else none

/-- Fixture source (i): rows with `GW > max_gw`. -/
def futureRows (m : MergedGws) : List GwRow :=
  match maxGWOf m with
  | none => []
  | some mx => m.rows.filter (fun r => optGT r.gw mx)

/-- Group a set of rows by team, collecting the Opponent Team column of each
group. -/
def groupOpps (rows : List GwRow) : List (String × List (Option String)) :=
  (dedupFirst (rows.map (fun r => r.team))).map
    (fun t => (t, (rows.filter (fun r => r.team == t)).map (fun r => r.opponentTeam)))

/-- Fixture source (i): explicit future-period rows keyed by team. -/
def source1 (m : MergedGws) : List (String × List (Option String)) :=
  let fut := futureRows m
  if fut.isEmpty then [] else if m.hasOpponentTeam then groupOpps fut else []

/-- `drop_duplicates(subset=["Team"])`: keep the first row of each team. -/
def dropDupByTeam (rows : List GwRow) : List GwRow :=
  rows.foldl (fun acc r => if acc.any (fun s => s.team == r.team) then acc else acc ++ [r]) []

/-- Fixture source (ii): the Next Opponent column — rows with a non-null
Next Opponent, first per team. -/
def source2 (m : MergedGws) : List (String × List (Option String)) :=
  if m.hasNextOpponent then
    (dropDupByTeam (m.rows.filter (fun r => r.nextOpponent.isSome))).filterMap
      (fun r => r.nextOpponent.map (fun o => (r.team, [some o])))
  else []

/-- Fixture source (iii): opponents of the last 3 gameweeks as a proxy.  The
rows surviving the `GW >= max_gw - 2` filter all carry a non-NaN GW, so the
`getD 0` in the sort key is never the NaN placement path. -/
def source3 (m : MergedGws) : List (String × List (Option String)) :=
  match maxGWOf m with
  | none => []
  | some mx =>
    if m.hasOpponentTeam then
      let recentRows := m.rows.filter (fun r => optGE r.gw (mx - 2))
      (dedupFirst (recentRows.map (fun r => r.team))).map (fun t =>
        (t, ((pandasSortDesc (fun r => r.gw.getD 0)
                (recentRows.filter (fun r => r.team == t))).map
              (fun r => r.opponentTeam)).take 3))
    else []

/-- The two-source resolver the spec-equivalence claim C10 compares against:
the same resolver with source (i) dropped.  This definition follows the
claim's words, not the code. -/
def upcomingMapTwoSources (m : MergedGws) : List (String × List (Option String)) :=
  let m2 := source2 m
  if m2.isEmpty then source3 m else m2

/-- The three-source upcoming-opponent resolver of `build_team_model`:
each later source runs only if the map is still empty. -/
def upcomingMap (m : MergedGws) : List (String × List (Option String)) :=
  let m1 := source1 m
  if m1.isEmpty then
    let m2 := source2 m
    if m2.isEmpty then source3 m else m2
  else m1

/-- `opp_def_map.get(o)`: the (filled) GC_per_Match of the named team, None
for NaN opponents or opponents absent from the team model. -/
def oppDefLookup (rows : List TeamRow) (o : Option String) : Option ℚ :=
  o.bind (fun name =>
    (rows.find? (fun r => r.team == name)).map (fun r => (TeamRow.gcPerMatch r).getD 0))

/-- `team_upcoming_gc`: mean opponent GC_per_Match per team, only for teams
with at least one resolvable opponent. -/
def teamUpcomingGc (m : MergedGws) (rows : List TeamRow) : List (String × ℚ) :=
  (upcomingMap m).filterMap (fun tc =>
    let vals := tc.2.filterMap (oppDefLookup rows)
    if vals.isEmpty then none else some (tc.1, vals.sum / (vals.length : ℚ)))

/-- `Opp_GC_per_Match_Upcoming` of one team. -/
def ogOf (m : MergedGws) (t50 : Top50) (t : String) : Option ℚ :=
  lookupA (teamUpcomingGc m (mergedTeamRows m t50)) t

/-- The defined (non-NaN) values of the `Opp_GC_per_Match_Upcoming` column —
the series the min–max normalisation runs over. -/
def definedValsOf (m : MergedGws) (t50 : Top50) : List ℚ :=
  (mergedTeamRows m t50).filterMap (fun r => ogOf m t50 r.team)

/-- `Fixture_Difficulty_Score` of a team with upcoming value `og`: min–max
scaled onto [1,5] when the defined values spread, the scalar 3.0 assigned to
the whole column when they collapse, NA for every team when no value is
defined. -/
def fdsOf (m : MergedGws) (t50 : Top50) (og : Option ℚ) : Option ℚ :=
  match minL (definedValsOf m t50), maxL (definedValsOf m t50) with
  | some mn, some mx =>
    if 0 < mx - mn then og.map (fun v => 1 + 4 * (v - mn) / (mx - mn)) else some 3
  | _, _ => none

/-- One row of the TeamIndex output table.  `goalsPerMatch`, `gcPerMatch`,
`xg`, `xgc` are the columns after the in-place `fillna(0)`;
`assistsPerMatch` and `pointsPerMatch` are not in the fillna list and stay
NaN-able. -/
structure TIRow where
  team : String
  goalsPerMatch : ℚ
  gcPerMatch : ℚ
  xg : ℚ
  xgc : ℚ
  assistsPerMatch : Option ℚ
  pointsPerMatch : Option ℚ
  attackIndex : ℚ
  defenseIndex : Option ℚ
  oppGcUpcoming : Option ℚ
  fds : Option ℚ
  attackAdj : ℚ
deriving DecidableEq, Inhabited

/-- The TeamIndex row of one aggregated team row. -/
def tiRowOf (m : MergedGws) (t50 : Top50) (r : TeamRow) : TIRow :=
  let og := ogOf m t50 r.team
  let fds := fdsOf m t50 og
  { team := r.team
    goalsPerMatch := (TeamRow.goalsPerMatch r).getD 0
    gcPerMatch := (TeamRow.gcPerMatch r).getD 0
    xg := r.xgMean.getD 0
    xgc := r.xgcMean.getD 0
    assistsPerMatch := TeamRow.assistsPerMatch r
    pointsPerMatch := TeamRow.pointsPerMatch r
    attackIndex := attackIndexOf r
    defenseIndex := defenseIndexOf r
    oppGcUpcoming := og
    fds := fds
    attackAdj := attackIndexOf r * (1 + (fds.getD 3 - 3) * 0.05) }

/-- `build_team_model(merged_gws, top50)`: one TeamIndex row per team of the
outer union. -/
def build_team_model (m : MergedGws) (t50 : Top50) : List TIRow :=
  (mergedTeamRows m t50).map (tiRowOf m t50)

/-! ### Player Model Builder (`build_player_model`) -/

/-- The pandas errors the player stage can surface.  The code only ever
raises generic lookup errors (`KeyError`) at the first operation touching a
missing column; the `validationError` constructor exists to express the
fail-fast error the specification describes (naming the offending table and
all missing columns), which no code path produces. -/
inductive PdError where
  | keyError (column : String)
  | validationError (table : String) (columns : List String)
deriving DecidableEq

instance {ε α : Type} [DecidableEq ε] [DecidableEq α] : DecidableEq (Except ε α) :=
  fun a b =>
    match a, b with
    | .error x, .error y =>
      if h : x = y then .isTrue (by rw [h]) else .isFalse (fun hc => h (by cases hc; rfl))
    | .ok x, .ok y =>
      if h : x = y then .isTrue (by rw [h]) else .isFalse (fun hc => h (by cases hc; rfl))
    | .error _, .ok _ => .isFalse (fun hc => by cases hc)
    | .ok _, .error _ => .isFalse (fun hc => by cases hc)

/-- One row of the `recent_form` aggregate.  Of the aggregated columns only
`Recent_Points` is ever read downstream (in `compute_base_form_value`);
`Recent_xGI` / `Recent_xGC` / `Recent_Minutes` / `Recent_Starts` are written
to the output and never read, so they are not carried. -/
structure RFRow where
  webName : String
  recentPoints : Option ℚ
deriving DecidableEq, Inhabited

/-- The recent-form window: the rows with `GW >= max(GW) - (recent_n - 1)`
when the GW column exists (an all-NaN GW column gives a NaN cutoff, hence an
empty window), the whole table otherwise. -/
def recentWindow (m : MergedGws) (recentN : ℕ) : List GwRow :=
  if m.hasGW then
    match maxL (m.rows.filterMap (fun r => r.gw)) with
    | none => []
    | some mx => m.rows.filter (fun r => optGE r.gw (mx - ((recentN : ℚ) - 1)))
  else m.rows

/-- `recent.groupby("Web name").agg(...)`: raises KeyError("Web name") when
the column is absent (both the aggregating branch and the
`recent[["Web name"]]` fallback for an empty agg map need the column);
otherwise one row per distinct name with the mean of GW Points over the
group when that column exists. -/
def recentForm (m : MergedGws) (recent : List GwRow) : Except PdError (List RFRow) :=
  if m.hasWebName then
    .ok ((dedupFirst (recent.map (fun r => r.webName))).map (fun w =>
      { webName := w
        recentPoints :=
          if m.hasGWPoints then optMean ((recent.filter (fun r => r.webName == w)).map (fun r => r.gwPoints))
          else none }))
  else .error (.keyError "Web name")

/-- The left-join of a player onto the recent-form aggregate: NaN recent
fields for players absent from the window. -/
def lookupRF (rf : List RFRow) (w : String) : Option ℚ :=
  (rf.find? (fun r => r.webName == w)).bind (fun r => r.recentPoints)

/-- The denominator of xGI_per90:
`(Total_Minutes / 90.0) if Total_Minutes else np.nan` — a zero (falsy) or
NaN minutes value makes the denominator NaN (NaN itself is truthy in Python
but NaN/90 is again NaN). -/
def per90Denom : Option ℚ → Option ℚ
  | some mnts => if mnts = 0 then none else some (mnts / 90)
  | none => none

/-- The base of `compute_base_form_value`: 0.6 × Recent_Points + 0.4 × Form,
each term only when defined (the base starts at 0.0). -/
def baseForm (rp f : Option ℚ) : ℚ :=
  (match rp with | some p => 0.6 * p | none => 0) +
    (match f with | some v => 0.4 * v | none => 0)

/-- A player row after the per-row derived metrics (before the global
normalisations). -/
structure PMRow0 where
  webName : String
  team : Option String
  position : Option String
  cost : Option ℚ
  form : Option ℚ
  totalPoints : Option ℚ
  totalMinutes : Option ℚ
  seasonXgi : Option ℚ
  recentPoints : Option ℚ
  pointsPerMillion : Option ℚ
  xgiPer90 : Option ℚ
  baseFormValue : Option ℚ
deriving DecidableEq, Inhabited

def pmRow0 (r : T50Row) (rp : Option ℚ) : PMRow0 :=
  { webName := r.webName, team := r.team, position := r.position
    cost := r.cost, form := r.form, totalPoints := r.totalPoints
    totalMinutes := r.totalMinutes, seasonXgi := r.seasonXgi, recentPoints := rp
    pointsPerMillion := safe_div r.totalPoints r.cost
    xgiPer90 := safe_div r.seasonXgi (per90Denom r.totalMinutes)
    baseFormValue := safe_div (some (baseForm rp r.form)) r.cost }

/-- A finished PlayerModel row: the per-row metrics plus the globally
normalised contributions and the Tuned Score. -/
structure PMRow extends PMRow0 where
  xgiNorm : ℚ
  teamAttackNorm : ℚ
  teamDefenseNorm : ℚ
  tunedScore : ℚ
deriving DecidableEq, Inhabited

/-- Min–max normalisation of the filled xGI_per90 column:
`(x - min)/(max - min)` when the column spreads, 0 everywhere otherwise. -/
def xgiNormOf (xs : List ℚ) (x : ℚ) : ℚ :=
  match minL xs, maxL xs with
  | some mn, some mx => if mn < mx then (x - mn) / (mx - mn) else 0
  | _, _ => 0

/-- Insert-or-replace into an association list (Python dict assignment:
a repeated key keeps its position and takes the last value, as
`set_index("Team")...to_dict()` does for duplicate teams). -/
def upsert (d : List (String × Option ℚ)) (k : String) (v : Option ℚ) :
    List (String × Option ℚ) :=
  if d.any (fun p => p.1 == k) then d.map (fun p => if p.1 == k then (k, v) else p)
  else d ++ [(k, v)]

/-- `team_model.set_index("Team")[col].to_dict()`. -/
def teamDict (tm : List TIRow) (f : TIRow → Option ℚ) : List (String × Option ℚ) :=
  tm.foldl (fun d r => upsert d r.team (f r)) []

/-- `norm_team_attack` / `norm_team_defense`: 0 for a NaN team, an unknown
team or a NaN index value; otherwise min–max over the dict's defined values
(0 when the range collapses).  The defined-value list is non-empty whenever
the looked-up value is defined, so the final catch-all is unreachable. -/
def normTeam (d : List (String × Option ℚ)) (t : Option String) : ℚ :=
  match t with
  | none => 0
  | some name =>
    match lookupA d name with
    | none => 0
    | some none => 0
    | some (some v) =>
      let vals := (d.map (fun p => p.2)).filterMap id
      match minL vals, maxL vals with
      | some mn, some mx => if mx - mn = 0 then 0 else (v - mn) / (mx - mn)
      | _, _ => 0

/-- `compute_tuned_score`: attackers (MID/FWD) get the xGI and team-attack
contributions, everyone else the team-defense contribution; an undefined
Base Form Value counts as 0 here.  A NaN position is not in
`["MID", "FWD"]`, hence takes the defensive branch. -/
def tunedScoreOf (p : PMRow0) (xn tan tdn : ℚ) : ℚ :=
  let base := p.baseFormValue.getD 0
  if p.position == some "MID" || p.position == some "FWD" then
    base + 0.45 * xn + 0.35 * tan
  else base + 0.5 * tdn

/-- The player-model assembly after the recent-form join: derived metrics,
global normalisations, Tuned Score, and the final descending sort. -/
def assemblePM (t50 : Top50) (rf : List RFRow) (tm : List TIRow) : List PMRow :=
  let rows0 := t50.rows.map (fun r => pmRow0 r (lookupRF rf r.webName))
  let xs := rows0.map (fun p => p.xgiPer90.getD 0)
  let atkD := teamDict tm (fun r => some r.attackAdj)
  let defD := teamDict tm (fun r => r.defenseIndex)
  pandasSortDesc (fun r => r.tunedScore)
    (rows0.map (fun p =>
      let xn := xgiNormOf xs (p.xgiPer90.getD 0)
      let tan := normTeam atkD p.team
      let tdn := normTeam defD p.team
      { toPMRow0 := p, xgiNorm := xn, teamAttackNorm := tan, teamDefenseNorm := tdn
        tunedScore := tunedScoreOf p xn tan tdn }))

/-- `build_player_model(top50, merged_gws, team_model, recent_n)`: computes
the recent window (a computation over the data), then the groupby on
"Web name" — which raises the KeyError when that column is missing — then
assembles and sorts the player model. -/
def build_player_model (t50 : Top50) (m : MergedGws) (tm : List TIRow) (recentN : ℕ) :
    Except PdError (List PMRow) :=
  match recentForm m (recentWindow m recentN) with
  | .error e => .error e
  | .ok rf => .ok (assemblePM t50 rf tm)

/-! ### Squad Selector (`build_sample_squad`) -/

/-- A candidate row as the selector reads it: name, position class, Tuned
Score and (possibly missing) cost. -/
structure Cand where
  webName : String
  position : Option String
  tunedScore : ℚ
  cost : Option ℚ
deriving DecidableEq, Inhabited

/-- A selected squad member; cost is the filled column
(`squad_df["Cost"].fillna(999.0)`). -/
structure SCand where
  webName : String
  position : Option String
  tunedScore : ℚ
  cost : ℚ
deriving DecidableEq, Inhabited

/-- A position's candidate pool: the candidates of that position sorted by
Tuned Score descending (a NaN position equals no position string). -/
def posPool (cs : List Cand) (pos : String) : List Cand :=
  pandasSortDesc (fun c => c.tunedScore) (cs.filter (fun c => c.position == some pos))

/-- The missing-cost sentinel: `fillna(999.0)`. -/
def fillCost (c : Cand) : SCand :=
  { webName := c.webName, position := c.position, tunedScore := c.tunedScore
    cost := c.cost.getD 999 }

/-- The concatenated initial picks: the top `count` of each position's pool,
in formation order (short pools contribute whatever they have). -/
def flatPick (cs : List Cand) : List (String × ℕ) → List Cand
  | [] => []
  | pc :: rest => (posPool cs pc.1).take pc.2 ++ flatPick cs rest

/-- The initial squad with the cost column filled. -/
def squad0Of (cs : List Cand) (formation : List (String × ℕ)) : List SCand :=
  (flatPick cs formation).map fillCost

/-- The swap pools: the full sorted pool of each formation position. -/
def extrasOf (cs : List Cand) (formation : List (String × ℕ)) :
    List (String × List Cand) :=
  formation.map (fun pc => (pc.1, posPool cs pc.1))

/-- `cand["Cost"] < row["Cost"]` where the candidate cost may be NaN: any
comparison with NaN is False, so a NaN-cost candidate is never swapped in. -/
def costLt : Option ℚ → ℚ → Bool
  | some v, c => decide (v < c)
  | none, _ => false

def sumCost (l : List SCand) : ℚ := (l.map (fun r => r.cost)).sum

/-- For one squad row: the first candidate of that position's pool that is
not already in the squad and strictly cheaper than the row (`None` when the
row's position has no pool or no such candidate). -/
def swapCand (extras : List (String × List Cand)) (names : List String) (row : SCand) :
    Option SCand :=
  match row.position with
  | none => none
  | some p =>
    match lookupA extras p with
    | none => none
    | some pool =>
      (pool.find? (fun c => !(names.contains c.webName) && costLt c.cost row.cost)).map
        fillCost

/-- Scan the (sorted) squad rows in order; the first row with a viable swap
gives its index and replacement. -/
def findSwapIdx (extras : List (String × List Cand)) (names : List String) :
    List SCand → Option (ℕ × SCand)
  | [] => none
  | r :: rest =>
    match swapCand extras names r with
    | some c => some (0, c)
    | none => (findSwapIdx extras names rest).map (fun ic => (ic.1 + 1, ic.2))

/-- One repair pass over the squad: replace the first replaceable row in
place (`squad_df.loc[idx] = cand`), `None` when a full pass finds nothing. -/
def findSwap (extras : List (String × List Cand)) (squad : List SCand) :
    Option (List SCand) :=
  (findSwapIdx extras (squad.map (fun r => r.webName)) squad).map
    (fun ic => squad.set ic.1 ic.2)

/-- `sort_values(by=["Cost", "Tuned_Score"], ascending=[False, True])`:
pandas lexsorts stably, descending cost first, score ascending to break
ties; equivalently a stable sort by the secondary key followed by a stable
sort by the negated cost. -/
def squadSort (l : List SCand) : List SCand :=
  sortK (fun r => -r.cost) (sortK (fun r => r.tunedScore) l)

/-- The bounded repair loop (`while total_cost > budget and attempts < 200`):
sort, attempt one replacement, repeat; stop early when no replacement is
found (the squad is then left in its sorted order, as the in-place pandas
sort does). -/
def repairLoop (extras : List (String × List Cand)) (budget : ℚ) :
    ℕ → List SCand → List SCand
  | 0, squad => squad
  | fuel + 1, squad =>
    if sumCost squad ≤ budget then squad
    else
      let sorted := squadSort squad
      match findSwap extras sorted with
      | none => sorted
      | some sq => repairLoop extras budget fuel sq

/-- `build_sample_squad(candidates, budget, formation)`: `none` models the
two `return pd.DataFrame()` paths — an empty formation, and a final total
cost above budget.  Both failure paths return the same bare empty frame;
a squad left short by an undersized position pool is not a failure path. -/
def build_sample_squad (cs : List Cand) (budget : ℚ) (formation : List (String × ℕ)) :
    Option (List SCand) :=
  if formation.isEmpty then none
  else
    let final := repairLoop (extrasOf cs formation) budget 200 (squad0Of cs formation)
    if budget < sumCost final then none else some final

/-! ### Concrete inputs used by counterexamples and witnesses -/

/-- The default quota configuration `SQUAD_RULES`. -/
def stdFormation : List (String × ℕ) := [("GKP", 2), ("DEF", 5), ("MID", 5), ("FWD", 3)]

/-- A candidate pool with a single goalkeeper: the GKP pool is short of its
quota of 2. -/
def exC1 : List Cand := [{ webName := "g1", position := some "GKP", tunedScore := 1, cost := some 1 }]

/-- A one-position formation for the squad-selector witness. -/
def exF1w : List (String × ℕ) := [("GKP", 1)]

/-- A pool whose only position class is short of its quota (1 < 2) while
easily affordable. -/
def exC2 : List Cand := [{ webName := "k1", position := some "GKP", tunedScore := 5, cost := some 4 }]

/-- A merged table lacking the required "Web name" column but carrying GW
data, so the recent-window computation runs on real rows before the lookup
error. -/
def exM3 : MergedGws :=
  { rows := [{ team := "T", webName := "x", goals := some 1, assist := none, cs := none
               gc := some 0, xg := none, xgc := none, gwPoints := some 7, gw := some 3
               nextOpponent := none, opponentTeam := none }]
    hasGW := true, hasNextOpponent := false, hasOpponentTeam := false
    hasWebName := false, hasGWPoints := true }

def exT3 : Top50 := { rows := [], hasSeasonCols := false }

/-- Two players with identical (all-undefined) statistics, hence equal Tuned
Scores, in input order A then B. -/
def exT4 : Top50 :=
  { rows := [{ webName := "A", team := none, position := none, cost := none, form := none
               totalPoints := none, totalMinutes := none, seasonXgi := none },
             { webName := "B", team := none, position := none, cost := none, form := none
               totalPoints := none, totalMinutes := none, seasonXgi := none }]
    hasSeasonCols := false }

/-- An empty merged table with the Web name column present. -/
def exM4 : MergedGws :=
  { rows := [], hasGW := false, hasNextOpponent := false, hasOpponentTeam := false
    hasWebName := true, hasGWPoints := false }

def gwRowOf (t : String) (gcv : Option ℚ) (nxt : Option String) : GwRow :=
  { team := t, webName := t ++ "p", goals := some 1, assist := none, cs := none
    gc := gcv, xg := none, xgc := none, gwPoints := some 2, gw := none
    nextOpponent := nxt, opponentTeam := none }

/-- Three teams; A's next opponent is B (resolvable), B has none, C's next
opponent is unknown — so only A gets a defined upcoming average and the
min–max range collapses. -/
def exM6c : MergedGws :=
  { rows := [gwRowOf "A" (some 1) (some "B"), gwRowOf "B" (some 2) none,
             gwRowOf "C" (some 3) (some "X")]
    hasGW := false, hasNextOpponent := true, hasOpponentTeam := false
    hasWebName := true, hasGWPoints := true }

def exT6 : Top50 := { rows := [], hasSeasonCols := false }

/-- The TeamIndex row of team C in the collapse scenario. -/
def exRow6c : TIRow :=
  ((build_team_model exM6c exT6).find? (fun r => r.team == "C")).getD default

/-- One team with no fixture information at all: no source resolves any
upcoming opponent. -/
def exM6w : MergedGws :=
  { rows := [gwRowOf "A" (some 1) none]
    hasGW := false, hasNextOpponent := false, hasOpponentTeam := false
    hasWebName := true, hasGWPoints := true }

/-- The TeamIndex row of the single team of `exM6w`. -/
def exRow6w : TIRow := (build_team_model exM6w exT6).headI

/-- A merged table observing only team A. -/
def exM7 : MergedGws :=
  { rows := [{ team := "A", webName := "a1", goals := some 2, assist := some 1, cs := some 0
               gc := some 1, xg := some 1, xgc := some 1, gwPoints := some 6, gw := some 1
               nextOpponent := none, opponentTeam := none }]
    hasGW := true, hasNextOpponent := false, hasOpponentTeam := false
    hasWebName := true, hasGWPoints := true }

/-- A season summary mentioning team Z, which has no period rows. -/
def exT7 : Top50 :=
  { rows := [{ webName := "z1", team := some "Z", position := some "DEF", cost := some 5
               form := some 2, totalPoints := some 30, totalMinutes := some 900
               seasonXgi := some 1 }]
    hasSeasonCols := true }

/-- The TeamIndex row of the zero-period team Z. -/
def exRow7 : TIRow :=
  ((build_team_model exM7 exT7).find? (fun r => r.team == "Z")).getD default

/-- A season summary with one entity whose season minutes are 0. -/
def exT8 : Top50 :=
  { rows := [{ webName := "p0", team := none, position := some "MID", cost := some 10
               form := none, totalPoints := some 20, totalMinutes := some 0
               seasonXgi := some 5 }]
    hasSeasonCols := false }

/-- The player model computed for the zero-minutes scenario. -/
def exPM8 : List PMRow := (build_player_model exT8 exM4 [] 5).toOption.getD []

/-- The player model computed for the equal-score scenario. -/
def exPM4 : List PMRow := (build_player_model exT4 exM4 [] 5).toOption.getD []

/-- The squad the selector returns on `exC1` with the one-position
formation `exF1w`. -/
def exSquad1 : List SCand :=
  [{ webName := "g1", position := some "GKP", tunedScore := 1, cost := 1 }]

/-! ### Helper lemmas: folded minimum / maximum -/

theorem foldl_min_le_init : ∀ (t : List ℚ) (a : ℚ), t.foldl min a ≤ a := by
  intro t
  induction t with
  | nil => intro a; simp
  | cons h t ih =>
    intro a
    calc (h :: t).foldl min a = t.foldl min (min a h) := rfl
    _ ≤ min a h := ih (min a h)
    _ ≤ a := min_le_left a h

theorem foldl_min_le_mem : ∀ (t : List ℚ) (a x : ℚ), x ∈ t → t.foldl min a ≤ x := by
  intro t
  induction t with
  | nil => intro a x hx; simp at hx
  | cons h t ih =>
    intro a x hx
    rcases List.mem_cons.mp hx with rfl | hx
    · exact le_trans (foldl_min_le_init t (min a x)) (min_le_right a x)
    · exact ih (min a h) x hx

theorem foldl_min_mem : ∀ (t : List ℚ) (a : ℚ), t.foldl min a = a ∨ t.foldl min a ∈ t := by
  intro t
  induction t with
  | nil => intro a; left; rfl
  | cons h t ih =>
    intro a
    rcases ih (min a h) with heq | hmem
    · have hfold : (h :: t).foldl min a = min a h := heq
      rcases min_choice a h with h1 | h1
      · left; rw [hfold, h1]
      · right; rw [hfold, h1]; exact List.mem_cons_self h t
    · right; exact List.mem_cons_of_mem h hmem

theorem foldl_le_max_init : ∀ (t : List ℚ) (a : ℚ), a ≤ t.foldl max a := by
  intro t
  induction t with
  | nil => intro a; simp
  | cons h t ih =>
    intro a
    calc a ≤ max a h := le_max_left a h
    _ ≤ t.foldl max (max a h) := ih (max a h)
    _ = (h :: t).foldl max a := rfl

theorem foldl_le_max_mem : ∀ (t : List ℚ) (a x : ℚ), x ∈ t → x ≤ t.foldl max a := by
  intro t
  induction t with
  | nil => intro a x hx; simp at hx
  | cons h t ih =>
    intro a x hx
    rcases List.mem_cons.mp hx with rfl | hx
    · exact le_trans (le_max_right a x) (foldl_le_max_init t (max a x))
    · exact ih (max a h) x hx

theorem foldl_max_mem : ∀ (t : List ℚ) (a : ℚ), t.foldl max a = a ∨ t.foldl max a ∈ t := by
  intro t
  induction t with
  | nil => intro a; left; rfl
  | cons h t ih =>
    intro a
    rcases ih (max a h) with heq | hmem
    · have hfold : (h :: t).foldl max a = max a h := heq
      rcases max_choice a h with h1 | h1
      · left; rw [hfold, h1]
      · right; rw [hfold, h1]; exact List.mem_cons_self h t
    · right; exact List.mem_cons_of_mem h hmem

theorem minL_le {l : List ℚ} {mn x : ℚ} (h : minL l = some mn) (hx : x ∈ l) : mn ≤ x := by
  cases l with
  | nil => simp at hx
  | cons a t =>
    have hmn : t.foldl min a = mn := by simpa [minL] using h
    rcases List.mem_cons.mp hx with rfl | hx
    · rw [← hmn]; exact foldl_min_le_init t x
    · rw [← hmn]; exact foldl_min_le_mem t a x hx

theorem le_maxL {l : List ℚ} {mx x : ℚ} (h : maxL l = some mx) (hx : x ∈ l) : x ≤ mx := by
  cases l with
  | nil => simp at hx
  | cons a t =>
    have hmx : t.foldl max a = mx := by simpa [maxL] using h
    rcases List.mem_cons.mp hx with rfl | hx
    · rw [← hmx]; exact foldl_le_max_init t x
    · rw [← hmx]; exact foldl_le_max_mem t a x hx

theorem minL_mem {l : List ℚ} {mn : ℚ} (h : minL l = some mn) : mn ∈ l := by
  cases l with
  | nil => simp [minL] at h
  | cons a t =>
    have hmn : t.foldl min a = mn := by simpa [minL] using h
    rcases foldl_min_mem t a with heq | hmem
    · rw [← hmn, heq]; exact List.mem_cons_self a t
    · rw [← hmn]; exact List.mem_cons_of_mem a hmem

theorem maxL_mem {l : List ℚ} {mx : ℚ} (h : maxL l = some mx) : mx ∈ l := by
  cases l with
  | nil => simp [maxL] at h
  | cons a t =>
    have hmx : t.foldl max a = mx := by simpa [maxL] using h
    rcases foldl_max_mem t a with heq | hmem
    · rw [← hmx, heq]; exact List.mem_cons_self a t
    · rw [← hmx]; exact List.mem_cons_of_mem a hmem

theorem minL_isSome {l : List ℚ} (h : l ≠ []) : ∃ mn, minL l = some mn := by
  cases l with
  | nil => exact absurd rfl h
  | cons a t => exact ⟨t.foldl min a, rfl⟩

theorem maxL_isSome {l : List ℚ} (h : l ≠ []) : ∃ mx, maxL l = some mx := by
  cases l with
  | nil => exact absurd rfl h
  | cons a t => exact ⟨t.foldl max a, rfl⟩

/-! ### Helper lemmas: the stable sort -/

theorem insertK_perm {α : Type} (key : α → ℚ) (x : α) :
    ∀ l : List α, (insertK key x l).Perm (x :: l) := by
  intro l
  induction l with
  | nil => exact List.Perm.refl _
  | cons h t ih =>
    by_cases hx : key x ≤ key h
    · simp [insertK, hx]
    · simp only [insertK, if_neg hx]
      exact (List.Perm.cons h ih).trans (List.Perm.swap x h t)

theorem sortK_perm {α : Type} (key : α → ℚ) : ∀ l : List α, (sortK key l).Perm l := by
  intro l
  induction l with
  | nil => exact List.Perm.refl _
  | cons h t ih => exact (insertK_perm key h (sortK key t)).trans (List.Perm.cons h ih)

theorem pandasSortDesc_perm {α : Type} (key : α → ℚ) (l : List α) :
    (pandasSortDesc key l).Perm l := by
  exact (List.reverse_perm (sortK key l)).trans (sortK_perm key l)

theorem chain_le_insertK {α : Type} (key : α → ℚ) (x : α) :
    ∀ l : List α, List.Chain' (fun a b => key a ≤ key b) l →
      List.Chain' (fun a b => key a ≤ key b) (insertK key x l) := by
  intro l
  induction l with
  | nil => intro _; simp [insertK]
  | cons h t ih =>
    intro hc
    by_cases hx : key x ≤ key h
    · simp only [insertK, if_pos hx]
      exact List.chain'_cons.mpr ⟨hx, hc⟩
    · simp only [insertK, if_neg hx]
      have hhx : key h ≤ key x := le_of_not_le hx
      cases t with
      | nil => simp [insertK, hhx]
      | cons h2 t2 =>
        have hpair := List.chain'_cons.mp hc
        have hih := ih hpair.2
        by_cases hx2 : key x ≤ key h2
        · simp only [insertK, if_pos hx2] at hih ⊢
          exact List.chain'_cons.mpr ⟨hhx, hih⟩
        · simp only [insertK, if_neg hx2] at hih ⊢
          exact List.chain'_cons.mpr ⟨hpair.1, hih⟩

theorem sortK_chain {α : Type} (key : α → ℚ) :
    ∀ l : List α, List.Chain' (fun a b => key a ≤ key b) (sortK key l) := by
  intro l
  induction l with
  | nil => simp [sortK]
  | cons h t ih => exact chain_le_insertK key h (sortK key t) ih

theorem pandasSortDesc_chain {α : Type} (key : α → ℚ) (l : List α) :
    List.Chain' (fun a b => key b ≤ key a) (pandasSortDesc key l) := by
  unfold pandasSortDesc
  rw [List.chain'_reverse]
  exact sortK_chain key l

/-! ### Helper lemmas: safe division -/

theorem safe_div_none_left (b : Option ℚ) : safe_div none b = none := by
  cases b <;> rfl

theorem safe_div_none_right (a : Option ℚ) : safe_div a none = none := by
  cases a <;> rfl

theorem safe_div_zero (a : Option ℚ) : safe_div a (some 0) = none := by
  cases a with
  | none => rfl
  | some x => simp [safe_div]

/-! ### Claim theorems: fixture resolution (C10) -/

theorem futureRows_eq_nil (m : MergedGws) : futureRows m = [] := by
  unfold futureRows
  cases hmax : maxGWOf m with
  | none => rfl
  | some mx =>
    rw [List.filter_eq_nil_iff]
    intro r hr
    cases hgw : r.gw with
    | none => simp [optGT]
    | some g =>
      have hmaxL : maxL (m.rows.filterMap (fun r => r.gw)) = some mx := by
        unfold maxGWOf at hmax
        split at hmax
        · exact hmax
        · exact absurd hmax (by simp)
      have hg : g ∈ m.rows.filterMap (fun r => r.gw) := List.mem_filterMap.mpr ⟨r, hr, hgw⟩
      have hle : g ≤ mx := le_maxL hmaxL hg
      simp [optGT, not_lt.mpr hle]

/-- Claim C10: the first fixture-resolution source (explicit future-period
rows, `merged_gws[merged_gws["GW"] > max_gw]`) selects rows whose period
index exceeds the maximum of the same column, a set that is always empty, so
the three-source upcoming-opponent resolver coincides with the two-source
resolver built only from the Next Opponent column and the last-3-periods
fallback. -/
theorem claim10_future_rows_vacuous :
    (∀ m : MergedGws, futureRows m = []) ∧
    (∀ m : MergedGws, upcomingMap m = upcomingMapTwoSources m) := by
  refine ⟨futureRows_eq_nil, fun m => ?_⟩
  simp [upcomingMap, upcomingMapTwoSources, source1, futureRows_eq_nil m]

/-! ### Claim theorems: fixture difficulty (C5, C6) -/

theorem fdsOf_none (m : MergedGws) (t50 : Top50) :
    fdsOf m t50 none = none ∨ fdsOf m t50 none = some 3 := by
  cases h1 : minL (definedValsOf m t50) with
  | none => left; simp [fdsOf, h1]
  | some mn =>
    cases h2 : maxL (definedValsOf m t50) with
    | none => left; simp [fdsOf, h1, h2]
    | some mx =>
      by_cases hlt : 0 < mx - mn
      · left; simp [fdsOf, h1, h2, hlt]
      · right; simp [fdsOf, h1, h2, hlt]

/-- Claim C5: when at least one team has a resolvable opponent average, every
defined Fixture Difficulty Score lies in [1, 5], and if all defined opponent
averages are equal then every team — including those with no defined
average — receives exactly 3.0. -/
theorem claim5_fixture_difficulty_range (m : MergedGws) (t50 : Top50)
    (hdv : definedValsOf m t50 ≠ []) :
    (∀ row ∈ build_team_model m t50, ∀ v : ℚ, row.fds = some v → 1 ≤ v ∧ v ≤ 5) ∧
    ((∀ x ∈ definedValsOf m t50, ∀ y ∈ definedValsOf m t50, x = y) →
      ∀ row ∈ build_team_model m t50, row.fds = some 3) := by
  obtain ⟨mn, hmn⟩ := minL_isSome hdv
  obtain ⟨mx, hmx⟩ := maxL_isSome hdv
  constructor
  · intro row hrow v hv
    obtain ⟨r, hr, hre⟩ := List.mem_map.mp hrow
    have hfds : row.fds = fdsOf m t50 (ogOf m t50 r.team) := by
      rw [← hre]; rfl
    rw [hfds] at hv
    by_cases hlt : 0 < mx - mn
    · simp only [fdsOf, hmn, hmx, if_pos hlt] at hv
      obtain ⟨u, hu, huv⟩ := Option.map_eq_some'.mp hv
      have humem : u ∈ definedValsOf m t50 := List.mem_filterMap.mpr ⟨r, hr, hu⟩
      have h1 : mn ≤ u := minL_le hmn humem
      have h2 : u ≤ mx := le_maxL hmx humem
      have hq0 : 0 ≤ (u - mn) / (mx - mn) := div_nonneg (by linarith) (le_of_lt hlt)
      have hq1 : (u - mn) / (mx - mn) ≤ 1 := (div_le_one hlt).mpr (by linarith)
      rw [← huv, mul_div_assoc]
      constructor <;> linarith
    · simp only [fdsOf, hmn, hmx, if_neg hlt] at hv
      have : v = 3 := by injection hv.symm
      rw [this]; norm_num
  · intro hall row hrow
    obtain ⟨r, hr, hre⟩ := List.mem_map.mp hrow
    have hfds : row.fds = fdsOf m t50 (ogOf m t50 r.team) := by
      rw [← hre]; rfl
    have heq : mn = mx := hall mn (minL_mem hmn) mx (maxL_mem hmx)
    have hnlt : ¬ 0 < mx - mn := by rw [heq]; simp
    rw [hfds]
    simp [fdsOf, hmn, hmx, hnlt]

/-- Claim C5 witness: the collapse input `exM6c` has a single defined
opponent average, and the theorem applies to it. -/
theorem claim5_fixture_difficulty_range_witness :
    definedValsOf exM6c exT6 ≠ [] ∧
    ((∀ row ∈ build_team_model exM6c exT6, ∀ v : ℚ, row.fds = some v → 1 ≤ v ∧ v ≤ 5) ∧
     ((∀ x ∈ definedValsOf exM6c exT6, ∀ y ∈ definedValsOf exM6c exT6, x = y) →
       ∀ row ∈ build_team_model exM6c exT6, row.fds = some 3)) :=
  ⟨by with_unfolding_all decide,
   claim5_fixture_difficulty_range exM6c exT6 (by with_unfolding_all decide)⟩

/-- Claim C6, counterexample: in `exM6c` the defined opponent averages
collapse (min = max), and team C — whose only listed opponent is unknown, so
no upcoming average is resolvable for it — nevertheless receives the defined
Fixture Difficulty Score 3.0, not the undefined marker the claim requires. -/
theorem claim6_counterexample :
    exRow6c.oppGcUpcoming = none ∧ exRow6c.fds = some 3 := by
  with_unfolding_all decide

/-- Claim C6 as amended: a team with no resolvable upcoming opponents keeps
its unadjusted Attack Index as its Fixture-Adjusted Attack Index (the
missing score enters the boost formula as the neutral 3.0), but its Fixture
Difficulty Score is only undefined when the defined averages spread or none
exists — in the min = max collapse the whole column, this team included, is
set to the defined value 3.0. -/
theorem claim6_missing_fixture_neutral (m : MergedGws) (t50 : Top50) :
    ∀ row ∈ build_team_model m t50, row.oppGcUpcoming = none →
      row.attackAdj = row.attackIndex ∧ (row.fds = none ∨ row.fds = some 3) := by
  intro row hrow hog
  obtain ⟨r, hr, hre⟩ := List.mem_map.mp hrow
  have hogr : ogOf m t50 r.team = none := by rw [← hre] at hog; exact hog
  have hfds : row.fds = fdsOf m t50 none := by rw [← hre]; show fdsOf m t50 (ogOf m t50 r.team) = _; rw [hogr]
  have hadj : row.attackAdj = attackIndexOf r * (1 + (row.fds.getD 3 - 3) * 0.05) := by
    rw [← hre]; rfl
  have hai : row.attackIndex = attackIndexOf r := by rw [← hre]; rfl
  have hcases := fdsOf_none m t50
  rw [← hfds] at hcases
  refine ⟨?_, hcases⟩
  have hget : row.fds.getD 3 = 3 := by
    rcases hcases with h | h <;> rw [h] <;> rfl
  rw [hadj, hai, hget]
  norm_num

/-- Claim C6 witness: the single team of `exM6w` has no resolvable
opponents; the theorem applies to its TeamIndex row. -/
theorem claim6_missing_fixture_neutral_witness :
    exRow6w ∈ build_team_model exM6w exT6 ∧ exRow6w.oppGcUpcoming = none ∧
      (exRow6w.attackAdj = exRow6w.attackIndex ∧
        (exRow6w.fds = none ∨ exRow6w.fds = some 3)) :=
  ⟨by with_unfolding_all decide, by with_unfolding_all decide,
   claim6_missing_fixture_neutral exM6w exT6 exRow6w (by with_unfolding_all decide)
     (by with_unfolding_all decide)⟩

/-! ### Claim theorems: zero-period teams (C7) -/

/-- Claim C7, counterexample: team Z appears in the season summary and has
no period rows; its TeamIndex row has goals- and goals-conceded-per-match 0
(the fillna list covers them) but its assists- and points-per-match stay
undefined — the claim's "all per-match rates equal 0" fails. -/
theorem claim7_counterexample :
    exRow7.team = "Z" ∧ exRow7.goalsPerMatch = 0 ∧ exRow7.gcPerMatch = 0 ∧
      exRow7.assistsPerMatch = none ∧ exRow7.pointsPerMatch = none := by
  with_unfolding_all decide

/-- Claim C7 as amended: a team present in the season summary with zero
observed periods appears in the TeamIndex with goals-per-match and
goals-conceded-per-match 0 (via the fillna list) while assists-per-match and
points-per-match remain explicitly undefined; the rates are total
Option-valued computations, so no division error can occur. -/
theorem claim7_zero_period_team (m : MergedGws) (t50 : Top50) (z : String)
    (hcols : t50.hasSeasonCols = true) (hz : z ∈ teamsOfTop50 t50)
    (hnz : z ∉ teamsOfGws m) :
    ∃ row ∈ build_team_model m t50, row.team = z ∧ row.goalsPerMatch = 0 ∧
      row.gcPerMatch = 0 ∧ row.assistsPerMatch = none ∧ row.pointsPerMatch = none := by
  have hmem : naStatRow z ∈ mergedTeamRows m t50 := by
    unfold mergedTeamRows
    rw [hcols]
    simp only [if_pos]
    refine List.mem_append.mpr (Or.inr ?_)
    refine List.mem_map.mpr ⟨z, ?_, rfl⟩
    refine List.mem_filter.mpr ⟨hz, ?_⟩
    simp [hnz]
  refine ⟨tiRowOf m t50 (naStatRow z), List.mem_map.mpr ⟨naStatRow z, hmem, rfl⟩,
    rfl, rfl, rfl, rfl, rfl⟩

/-- Claim C7 witness: team Z of the concrete scenario satisfies the amended
statement. -/
theorem claim7_zero_period_team_witness :
    exT7.hasSeasonCols = true ∧ ("Z" ∈ teamsOfTop50 exT7) ∧ ("Z" ∉ teamsOfGws exM7) ∧
      (∃ row ∈ build_team_model exM7 exT7, row.team = "Z" ∧ row.goalsPerMatch = 0 ∧
        row.gcPerMatch = 0 ∧ row.assistsPerMatch = none ∧ row.pointsPerMatch = none) :=
  ⟨rfl, by with_unfolding_all decide, by with_unfolding_all decide,
   claim7_zero_period_team exM7 exT7 "Z" rfl (by with_unfolding_all decide)
     (by with_unfolding_all decide)⟩

/-! ### Claim theorems: player model (C8, C4, C3) -/

theorem mem_assemblePM {t50 : Top50} {rf : List RFRow} {tm : List TIRow} {r : PMRow}
    (hr : r ∈ assemblePM t50 rf tm) :
    ∃ sr ∈ t50.rows, r.toPMRow0 = pmRow0 sr (lookupRF rf sr.webName) := by
  unfold assemblePM at hr
  have hr2 := (pandasSortDesc_perm (fun q : PMRow => q.tunedScore) _).mem_iff.mp hr
  obtain ⟨p, hp, hpe⟩ := List.mem_map.mp hr2
  obtain ⟨sr, hsr, hsre⟩ := List.mem_map.mp hp
  refine ⟨sr, hsr, ?_⟩
  rw [← hpe]
  exact hsre.symm

theorem build_player_model_ok {t50 : Top50} {m : MergedGws} {tm : List TIRow}
    {recentN : ℕ} {pm : List PMRow}
    (hok : build_player_model t50 m tm recentN = .ok pm) :
    ∃ rf, recentForm m (recentWindow m recentN) = .ok rf ∧ pm = assemblePM t50 rf tm := by
  unfold build_player_model at hok
  cases hrf : recentForm m (recentWindow m recentN) with
  | error e => rw [hrf] at hok; exact absurd hok (by simp)
  | ok rf =>
    rw [hrf] at hok
    refine ⟨rf, rfl, ?_⟩
    injection hok with h
    exact h.symm

/-- Claim C8: in every successfully built player model, an entity with
season minutes 0 has an undefined xGI_per90 (not 0, not a finite stand-in);
more generally the safe-division metrics are undefined whenever an operand
is undefined or the denominator is zero — points-per-cost and base form
value for a missing or zero cost, xGI_per90 for a missing season xGI —
and, the embedding being total, no exception is possible. -/
theorem claim8_safe_division (t50 : Top50) (m : MergedGws) (tm : List TIRow)
    (recentN : ℕ) (pm : List PMRow)
    (hok : build_player_model t50 m tm recentN = .ok pm) :
    ∀ r ∈ pm,
      (r.totalMinutes = some 0 → r.xgiPer90 = none) ∧
      (r.seasonXgi = none → r.xgiPer90 = none) ∧
      (r.cost = none ∨ r.cost = some 0 →
        r.pointsPerMillion = none ∧ r.baseFormValue = none) ∧
      (r.totalPoints = none → r.pointsPerMillion = none) := by
  obtain ⟨rf, _, hpm⟩ := build_player_model_ok hok
  subst hpm
  intro r hr
  obtain ⟨sr, _, hr0⟩ := mem_assemblePM hr
  have hmin : r.totalMinutes = sr.totalMinutes := by
    rw [show r.totalMinutes = r.toPMRow0.totalMinutes from rfl, hr0]; rfl
  have hxgi0 : r.seasonXgi = sr.seasonXgi := by
    rw [show r.seasonXgi = r.toPMRow0.seasonXgi from rfl, hr0]; rfl
  have hcost : r.cost = sr.cost := by
    rw [show r.cost = r.toPMRow0.cost from rfl, hr0]; rfl
  have hpts : r.totalPoints = sr.totalPoints := by
    rw [show r.totalPoints = r.toPMRow0.totalPoints from rfl, hr0]; rfl
  have hx : r.xgiPer90 = safe_div sr.seasonXgi (per90Denom sr.totalMinutes) := by
    rw [show r.xgiPer90 = r.toPMRow0.xgiPer90 from rfl, hr0]; rfl
  have hp : r.pointsPerMillion = safe_div sr.totalPoints sr.cost := by
    rw [show r.pointsPerMillion = r.toPMRow0.pointsPerMillion from rfl, hr0]; rfl
  have hb : r.baseFormValue =
      safe_div (some (baseForm (lookupRF rf sr.webName) sr.form)) sr.cost := by
    rw [show r.baseFormValue = r.toPMRow0.baseFormValue from rfl, hr0]; rfl
  refine ⟨?_, ?_, ?_, ?_⟩
  · intro h0
    rw [hmin] at h0
    rw [hx, h0]
    have : per90Denom (some 0) = none := by simp [per90Denom]
    rw [this, safe_div_none_right]
  · intro h0
    rw [hxgi0] at h0
    rw [hx, h0, safe_div_none_left]
  · intro h0
    rw [hcost] at h0
    rcases h0 with h0 | h0 <;> rw [hp, hb, h0]
    · exact ⟨safe_div_none_right _, safe_div_none_right _⟩
    · exact ⟨safe_div_zero _, safe_div_zero _⟩
  · intro h0
    rw [hpts] at h0
    rw [hp, h0, safe_div_none_left]

/-- Claim C8 witness: the zero-minutes entity of `exT8` appears in the built
model with undefined xGI_per90. -/
theorem claim8_safe_division_witness :
    build_player_model exT8 exM4 [] 5 = .ok exPM8 ∧ exPM8.headI ∈ exPM8 ∧
      exPM8.headI.totalMinutes = some 0 ∧
      (exPM8.headI.totalMinutes = some 0 → exPM8.headI.xgiPer90 = none) :=
  ⟨by with_unfolding_all decide, by with_unfolding_all decide,
   by with_unfolding_all decide,
   (claim8_safe_division exT8 exM4 [] 5 exPM8 (by with_unfolding_all decide) _
     (by with_unfolding_all decide)).1⟩

/-- Claim C4, counterexample: two players with identical statistics (equal
Tuned Scores), in input order A then B, come out of `build_player_model` in
order B then A — the pandas single-key descending sort reverses a stable
ascending sort, so equal scores appear in reversed input order, not input
order. -/
theorem claim4_counterexample :
    (build_player_model exT4 exM4 [] 5).map (fun l => l.map (fun r => r.webName)) =
      .ok ["B", "A"] ∧
    (build_player_model exT4 exM4 [] 5).map (fun l => l.map (fun r => r.tunedScore)) =
      .ok [0, 0] ∧
    exT4.rows.map (fun r => r.webName) = ["A", "B"] := by
  with_unfolding_all decide

/-- Claim C4 as amended: every successfully built player model is sorted by
Tuned Score in descending order, but rows with equal Tuned Score do not keep
their input order — the descending sort is the reverse of a stable ascending
sort, so ties appear in reversed input order. -/
theorem claim4_sorted_descending (t50 : Top50) (m : MergedGws) (tm : List TIRow)
    (recentN : ℕ) (pm : List PMRow)
    (hok : build_player_model t50 m tm recentN = .ok pm) :
    List.Chain' (fun a b => b.tunedScore ≤ a.tunedScore) pm := by
  obtain ⟨rf, _, hpm⟩ := build_player_model_ok hok
  subst hpm
  unfold assemblePM
  exact pandasSortDesc_chain (fun q : PMRow => q.tunedScore) _

/-- Claim C4 witness: the two-player model is sorted descending. -/
theorem claim4_sorted_descending_witness :
    build_player_model exT4 exM4 [] 5 = .ok exPM4 ∧
      List.Chain' (fun a b => b.tunedScore ≤ a.tunedScore) exPM4 :=
  ⟨by with_unfolding_all decide,
   claim4_sorted_descending exT4 exM4 [] 5 exPM4 (by with_unfolding_all decide)⟩

/-- Claim C3, counterexample: on a merged table missing the required
"Web name" column the Player Model Builder still computes the recent-form
window over the data (the window is non-empty) and then fails with the
generic lookup error naming only the column — not a fail-fast validation
error naming the missing columns and the offending table (the
`PdError.validationError` shape, which no code path produces). -/
theorem claim3_counterexample :
    build_player_model exT3 exM3 [] 5 = .error (.keyError "Web name") ∧
      recentWindow exM3 5 ≠ [] := by
  with_unfolding_all decide

/-- Claim C3 as amended: a missing required column does not produce an
upfront validation error naming the table and all missing columns — the
stage runs until the first operation that touches the column (here the
groupby on "Web name", after the recent-window computation) and surfaces a
generic KeyError naming only that column. -/
theorem claim3_missing_column_generic_error (t50 : Top50) (m : MergedGws)
    (tm : List TIRow) (recentN : ℕ) (hweb : m.hasWebName = false) :
    build_player_model t50 m tm recentN = .error (.keyError "Web name") := by
  unfold build_player_model recentForm
  rw [hweb]
  simp

/-- Claim C3 witness: the concrete table without "Web name" takes the
generic-KeyError path. -/
theorem claim3_missing_column_generic_error_witness :
    exM3.hasWebName = false ∧
      build_player_model exT3 exM3 [] 5 = .error (.keyError "Web name") :=
  ⟨rfl, claim3_missing_column_generic_error exT3 exM3 [] 5 rfl⟩

/-! ### Claim theorems: squad selector (C9, C2, C1) -/

/-- Claim C9: the Squad Selector is deterministic — two runs on identical
candidate pools, quotas and budget give identical outputs (the embedding is
a pure function because the code draws on no randomness: its only inputs are
the arguments). -/
theorem claim9_selector_deterministic (c1 c2 : List Cand) (b1 b2 : ℚ)
    (f1 f2 : List (String × ℕ)) (hc : c1 = c2) (hb : b1 = b2) (hf : f1 = f2) :
    build_sample_squad c1 b1 f1 = build_sample_squad c2 b2 f2 := by
  rw [hc, hb, hf]

/-- Claim C9 witness: two identical concrete runs coincide. -/
theorem claim9_selector_deterministic_witness :
    build_sample_squad exC2 100 stdFormation = build_sample_squad exC2 100 stdFormation :=
  claim9_selector_deterministic exC2 exC2 100 100 stdFormation stdFormation rfl rfl rfl

/-- Claim C2, counterexample: the goalkeeper pool has a single candidate
(quota 2), so the selector "cannot meet quota" — yet it returns the short
squad as a success, not an infeasibility result of any kind, let alone one
distinguishing causes or carrying a reason. -/
theorem claim2_counterexample :
    (exC2.filter (fun c => c.position == some "GKP")).length = 1 ∧
      build_sample_squad exC2 100 stdFormation =
        some [{ webName := "k1", position := some "GKP", tunedScore := 5, cost := 4 }] := by
  with_unfolding_all decide

/-- Claim C2 as amended: the selector never raises (it is a total function
returning either a squad or the bare empty-frame marker), and its only
infeasibility signal is that unstructured empty result, produced exactly
when the post-repair total cost still exceeds the budget — it carries no
cause distinction and no reason, and an undersized position pool alone never
produces it (the short squad is returned whenever it fits the budget). -/
theorem claim2_infeasibility_unstructured (cs : List Cand) (budget : ℚ)
    (formation : List (String × ℕ)) (hf : formation ≠ []) :
    build_sample_squad cs budget formation = none ↔
      budget <
        sumCost (repairLoop (extrasOf cs formation) budget 200 (squad0Of cs formation)) := by
  by_cases h :
      budget < sumCost (repairLoop (extrasOf cs formation) budget 200 (squad0Of cs formation)) <;>
    simp [build_sample_squad, List.isEmpty_iff, hf, h]

/-- Claim C2 witness: the empty pool under a zero budget is feasible (cost
0), so the amended equivalence is exercised on a concrete input. -/
theorem claim2_infeasibility_unstructured_witness :
    stdFormation ≠ [] ∧
      (build_sample_squad [] 0 stdFormation = none ↔
        (0 : ℚ) < sumCost (repairLoop (extrasOf [] stdFormation) 0 200 (squad0Of [] stdFormation))) :=
  ⟨by decide, claim2_infeasibility_unstructured [] 0 stdFormation (by decide)⟩

/-- Claim C1, counterexample: with the default quotas and a pool holding one
cheap goalkeeper and nothing else, the selector returns a one-row squad —
the GKP class has 1 member instead of its quota 2 and the roster has 1 row
instead of 15 — because the final check tests only the budget; the short
selection is not reported infeasible. -/
theorem claim1_counterexample :
    build_sample_squad exC1 100 stdFormation =
      some [{ webName := "g1", position := some "GKP", tunedScore := 1, cost := 1 }] ∧
      (exC1.filter (fun c => c.position == some "GKP")).length = 1 ∧
      (build_sample_squad exC1 100 stdFormation).map (fun l => l.length) = some 1 := by
  with_unfolding_all decide

theorem mem_posPool {cs : List Cand} {p : String} {c : Cand} (h : c ∈ posPool cs p) :
    c ∈ cs ∧ c.position = some p := by
  unfold posPool at h
  have h2 := (pandasSortDesc_perm (fun q : Cand => q.tunedScore) _).mem_iff.mp h
  have h3 := List.mem_filter.mp h2
  exact ⟨h3.1, eq_of_beq h3.2⟩

theorem posPool_names_nodup {cs : List Cand}
    (hn : (cs.map (fun c => c.webName)).Nodup) (p : String) :
    ((posPool cs p).map (fun c => c.webName)).Nodup := by
  have hperm : ((posPool cs p).map (fun c => c.webName)).Perm
      ((cs.filter (fun c => c.position == some p)).map (fun c => c.webName)) :=
    (pandasSortDesc_perm (fun q : Cand => q.tunedScore) _).map _
  have hsub : ((cs.filter (fun c => c.position == some p)).map
      (fun c => c.webName)).Sublist (cs.map (fun c => c.webName)) :=
    (List.filter_sublist cs).map _
  exact hperm.nodup_iff.mpr (hn.sublist hsub)

theorem mem_flatPick {cs : List Cand} {c : Cand} :
    ∀ {f : List (String × ℕ)}, c ∈ flatPick cs f →
      ∃ pc ∈ f, c ∈ (posPool cs pc.1).take pc.2 := by
  intro f
  induction f with
  | nil => intro h; simp [flatPick] at h
  | cons pc rest ih =>
    intro h
    simp only [flatPick] at h
    rcases List.mem_append.mp h with h | h
    · exact ⟨pc, List.mem_cons_self pc rest, h⟩
    · obtain ⟨pc2, hpc2, hc⟩ := ih h
      exact ⟨pc2, List.mem_cons_of_mem pc hpc2, hc⟩

theorem mem_pick_props {cs : List Cand} {pc : String × ℕ} {c : Cand}
    (h : c ∈ (posPool cs pc.1).take pc.2) : c ∈ cs ∧ c.position = some pc.1 :=
  mem_posPool (List.take_subset _ _ h)

theorem countP_pick_self (cs : List Cand) (pc : String × ℕ) :
    ((posPool cs pc.1).take pc.2).countP (fun c => c.position == some pc.1) =
      ((posPool cs pc.1).take pc.2).length := by
  rw [List.countP_eq_length]
  intro c hc
  simp [(mem_pick_props hc).2]

theorem countP_pick_other {cs : List Cand} {pc : String × ℕ} {k : String}
    (hne : pc.1 ≠ k) :
    ((posPool cs pc.1).take pc.2).countP (fun c => c.position == some k) = 0 := by
  rw [List.countP_eq_zero]
  intro c hc
  simp [(mem_pick_props hc).2, hne]

theorem pick_length (cs : List Cand) (pc : String × ℕ) :
    ((posPool cs pc.1).take pc.2).length =
      min pc.2 ((cs.filter (fun c => c.position == some pc.1)).length) := by
  rw [List.length_take]
  congr 1
  exact (pandasSortDesc_perm (fun q : Cand => q.tunedScore) _).length_eq

theorem flatPick_countP_zero {cs : List Cand} {k : String} :
    ∀ {f : List (String × ℕ)}, k ∉ f.map (fun pc => pc.1) →
      (flatPick cs f).countP (fun c => c.position == some k) = 0 := by
  intro f
  induction f with
  | nil => intro _; simp [flatPick]
  | cons pc rest ih =>
    intro hk
    have hk1 : pc.1 ≠ k := by
      intro h
      exact hk (List.mem_map.mpr ⟨pc, List.mem_cons_self pc rest, h⟩)
    have hk2 : k ∉ rest.map (fun pc => pc.1) := by
      intro h
      exact hk (by rw [List.map_cons]; exact List.mem_cons_of_mem _ h)
    simp only [flatPick, List.countP_append, countP_pick_other hk1, ih hk2]

theorem flatPick_countP {cs : List Cand} :
    ∀ {f : List (String × ℕ)}, (f.map (fun pc => pc.1)).Nodup →
      ∀ pc0 ∈ f, (flatPick cs f).countP (fun c => c.position == some pc0.1) =
        min pc0.2 ((cs.filter (fun c => c.position == some pc0.1)).length) := by
  intro f
  induction f with
  | nil => intro _ pc0 h; simp at h
  | cons pc rest ih =>
    intro hnd pc0 hpc0
    have hnd2 : pc.1 ∉ rest.map (fun pc => pc.1) ∧ (rest.map (fun pc => pc.1)).Nodup := by
      rw [List.map_cons, List.nodup_cons] at hnd
      exact hnd
    rcases List.mem_cons.mp hpc0 with rfl | hpc0
    · have hzero : (flatPick cs rest).countP (fun c => c.position == some pc0.1) = 0 :=
        flatPick_countP_zero hnd2.1
      simp only [flatPick, List.countP_append, hzero, countP_pick_self, pick_length,
        Nat.add_zero]
    · have hne : pc.1 ≠ pc0.1 := by
        intro h
        exact hnd2.1 (h ▸ List.mem_map.mpr ⟨pc0, hpc0, rfl⟩)
      simp only [flatPick, List.countP_append, countP_pick_other hne,
        ih hnd2.2 pc0 hpc0, Nat.zero_add]

theorem flatPick_names_nodup {cs : List Cand}
    (hn : (cs.map (fun c => c.webName)).Nodup) :
    ∀ {f : List (String × ℕ)}, (f.map (fun pc => pc.1)).Nodup →
      ((flatPick cs f).map (fun c => c.webName)).Nodup := by
  intro f
  induction f with
  | nil => intro _; simp [flatPick]
  | cons pc rest ih =>
    intro hnd
    have hnd2 : pc.1 ∉ rest.map (fun pc => pc.1) ∧ (rest.map (fun pc => pc.1)).Nodup := by
      rw [List.map_cons, List.nodup_cons] at hnd
      exact hnd
    simp only [flatPick, List.map_append]
    rw [List.nodup_append]
    refine ⟨(posPool_names_nodup hn pc.1).sublist ((List.take_sublist _ _).map _),
      ih hnd2.2, ?_⟩
    intro a ha hb
    obtain ⟨x, hx, hxa⟩ := List.mem_map.mp ha
    obtain ⟨y, hy, hya⟩ := List.mem_map.mp hb
    obtain ⟨pc2, hpc2, hy2⟩ := mem_flatPick hy
    have hxp := mem_pick_props hx
    have hyp := mem_pick_props hy2
    have hxy : x = y := List.inj_on_of_nodup_map hn hxp.1 hyp.1 (by rw [hxa, hya])
    have heq : pc.1 = pc2.1 := by
      have := hxp.2
      rw [hxy, hyp.2] at this
      injection this with h
      exact h.symm
    exact hnd2.1 (heq ▸ List.mem_map.mpr ⟨pc2, hpc2, rfl⟩)

theorem squad0_names (cs : List Cand) (f : List (String × ℕ)) :
    (squad0Of cs f).map (fun r => r.webName) = (flatPick cs f).map (fun c => c.webName) := by
  rw [squad0Of, List.map_map]
  rfl

theorem squad0_countP (cs : List Cand) (f : List (String × ℕ)) (k : String) :
    (squad0Of cs f).countP (fun r => r.position == some k) =
      (flatPick cs f).countP (fun c => c.position == some k) := by
  rw [squad0Of, List.countP_map]
  rfl

theorem set_append_cons {α : Type} (pre : List α) (r c : α) (post : List α) :
    (pre ++ r :: post).set pre.length c = pre ++ c :: post := by
  induction pre with
  | nil => rfl
  | cons h t ih =>
    show h :: (t ++ r :: post).set t.length c = h :: (t ++ c :: post)
    rw [ih]

theorem findSwapIdx_decomp {extras : List (String × List Cand)} {names : List String} :
    ∀ {s : List SCand} {i : ℕ} {c : SCand}, findSwapIdx extras names s = some (i, c) →
      ∃ pre r post, s = pre ++ r :: post ∧ pre.length = i ∧
        swapCand extras names r = some c := by
  intro s
  induction s with
  | nil => intro i c h; simp [findSwapIdx] at h
  | cons r rest ih =>
    intro i c h
    rw [show findSwapIdx extras names (r :: rest) =
        (match swapCand extras names r with
          | some c2 => some (0, c2)
          | none => (findSwapIdx extras names rest).map (fun ic => (ic.1 + 1, ic.2)))
        from rfl] at h
    cases hsc : swapCand extras names r with
    | some c2 =>
      rw [hsc] at h
      have h1 : ((0 : ℕ), c2) = (i, c) := Option.some.inj h
      cases h1
      exact ⟨[], r, rest, rfl, rfl, hsc⟩
    | none =>
      rw [hsc] at h
      obtain ⟨ic, hrec, heq⟩ := Option.map_eq_some'.mp h
      have h1 : (ic.1 + 1, ic.2) = (i, c) := heq
      cases h1
      obtain ⟨pre, r2, post, hs, hlen, hsw⟩ := ih hrec
      exact ⟨r :: pre, r2, post, by simp [hs], by simp [hlen], hsw⟩

theorem lookupA_cons {α : Type} (k : String) (v : α) (rest : List (String × α)) (p : String) :
    lookupA ((k, v) :: rest) p = if k == p then some v else lookupA rest p := by
  unfold lookupA
  cases hb : (k == p) <;> simp [List.find?, hb]

theorem lookupA_extrasOf {cs : List Cand} {p : String} {pool : List Cand} :
    ∀ {f : List (String × ℕ)}, lookupA (extrasOf cs f) p = some pool →
      pool = posPool cs p := by
  intro f
  induction f with
  | nil => intro h; simp [extrasOf, lookupA] at h
  | cons pc rest ih =>
    intro h
    rw [show extrasOf cs (pc :: rest) = (pc.1, posPool cs pc.1) :: extrasOf cs rest
        from rfl, lookupA_cons] at h
    by_cases hb : (pc.1 == p) = true
    · rw [if_pos hb] at h
      have := Option.some.inj h
      rw [← this, ← eq_of_beq hb]
    · rw [if_neg hb] at h
      exact ih h

theorem swapCand_props {cs : List Cand} {f : List (String × ℕ)} {names : List String}
    {row : SCand} {c : SCand} (h : swapCand (extrasOf cs f) names row = some c) :
    names.contains c.webName = false ∧ c.position = row.position := by
  cases hpos : row.position with
  | none =>
    simp only [swapCand, hpos] at h
    exact Option.noConfusion h
  | some p =>
    simp only [swapCand, hpos] at h
    cases hlk : lookupA (extrasOf cs f) p with
    | none => rw [hlk] at h; simp at h
    | some pool =>
      rw [hlk] at h
      obtain ⟨c0, hfind, hfc⟩ := Option.map_eq_some'.mp h
      have hpred := List.find?_some hfind
      have hmem := List.mem_of_find?_eq_some hfind
      rw [lookupA_extrasOf hlk] at hmem
      have hprops := mem_posPool hmem
      have hcontains : names.contains c0.webName = false := by
        have hboth : names.contains c0.webName = false ∧ costLt c0.cost row.cost = true := by
          simpa using hpred
        exact hboth.1
      constructor
      · rw [← hfc]; exact hcontains
      · rw [← hfc]; exact hprops.2

theorem squadSort_perm (s : List SCand) : (squadSort s).Perm s :=
  (sortK_perm (fun r : SCand => -r.cost) _).trans (sortK_perm (fun r : SCand => r.tunedScore) s)

theorem nodup_replace {a b : String} (pre post : List String)
    (hnd : (pre ++ a :: post).Nodup) (hb : b ∉ pre ++ a :: post) :
    (pre ++ b :: post).Nodup := by
  rw [List.nodup_middle] at hnd ⊢
  rw [List.nodup_cons] at hnd ⊢
  refine ⟨?_, hnd.2⟩
  intro hbmem
  apply hb
  rcases List.mem_append.mp hbmem with h | h
  · exact List.mem_append.mpr (Or.inl h)
  · exact List.mem_append.mpr (Or.inr (List.mem_cons_of_mem a h))

theorem findSwap_preserves {cs : List Cand} {f : List (String × ℕ)} {s s2 : List SCand}
    (hnd : (s.map (fun r => r.webName)).Nodup)
    (hsw : findSwap (extrasOf cs f) s = some s2) :
    ((s2.map (fun r => r.webName)).Nodup) ∧
      ∀ k : String, s2.countP (fun r => r.position == some k) =
        s.countP (fun r => r.position == some k) := by
  unfold findSwap at hsw
  obtain ⟨ic, hidx, hset⟩ := Option.map_eq_some'.mp hsw
  obtain ⟨pre, r, post, hs, hlen, hcand⟩ := findSwapIdx_decomp hidx
  have hprops := swapCand_props hcand
  have hs2 : s2 = pre ++ ic.2 :: post := by
    rw [← hset, hs, ← hlen, set_append_cons]
  have hnotmem : ic.2.webName ∉ s.map (fun r => r.webName) := by
    have := hprops.1
    simpa using this
  constructor
  · rw [hs2]
    rw [hs] at hnd hnotmem
    simp only [List.map_append, List.map_cons] at hnd hnotmem ⊢
    exact nodup_replace _ _ hnd hnotmem
  · intro k
    rw [hs2, hs]
    have hpp : ((fun r : SCand => r.position == some k) r) =
        ((fun r : SCand => r.position == some k) ic.2) := by
      simp only
      rw [hprops.2]
    simp [List.countP_append, List.countP_cons, hpp.symm]

theorem repairLoop_preserves (cs : List Cand) (f : List (String × ℕ)) (budget : ℚ) :
    ∀ (fuel : ℕ) (s : List SCand),
      ((s.map (fun r => r.webName)).Nodup ∧
        ∀ pc ∈ f, s.countP (fun r => r.position == some pc.1) =
          min pc.2 ((cs.filter (fun c => c.position == some pc.1)).length)) →
      (((repairLoop (extrasOf cs f) budget fuel s).map (fun r => r.webName)).Nodup ∧
        ∀ pc ∈ f, (repairLoop (extrasOf cs f) budget fuel s).countP
            (fun r => r.position == some pc.1) =
          min pc.2 ((cs.filter (fun c => c.position == some pc.1)).length)) := by
  intro fuel
  induction fuel with
  | zero => intro s h; exact h
  | succ n ih =>
    intro s h
    rw [show repairLoop (extrasOf cs f) budget (n + 1) s =
        (if sumCost s ≤ budget then s
         else match findSwap (extrasOf cs f) (squadSort s) with
           | none => squadSort s
           | some sq => repairLoop (extrasOf cs f) budget n sq) from rfl]
    split_ifs with hle
    · exact h
    · have hperm := squadSort_perm s
      have hsortnd : ((squadSort s).map (fun r => r.webName)).Nodup :=
        ((hperm.map _).nodup_iff).mpr h.1
      have hsortcnt : ∀ pc ∈ f, (squadSort s).countP (fun r => r.position == some pc.1) =
          min pc.2 ((cs.filter (fun c => c.position == some pc.1)).length) :=
        fun pc hpc => (hperm.countP_eq _).trans (h.2 pc hpc)
      cases hsw : findSwap (extrasOf cs f) (squadSort s) with
      | none => exact ⟨hsortnd, hsortcnt⟩
      | some sq =>
        have hpres := findSwap_preserves hsortnd hsw
        exact ih sq ⟨hpres.1, fun pc hpc => (hpres.2 pc.1).trans (hsortcnt pc hpc)⟩

/-- Claim C1 as amended: under the standing data-model invariants (distinct
entity names, distinct quota keys), every non-failure result of the selector
has total cost within budget, contains no duplicate entity, and holds
exactly min(quota, pool size) members of each configured position class —
so a position pool short of its quota yields a short squad that is returned
as a success whenever it fits the budget, not an infeasibility report at
the final check (which tests only the budget). -/
theorem claim1_squad_structure (cs : List Cand) (budget : ℚ)
    (formation : List (String × ℕ))
    (hn : (cs.map (fun c => c.webName)).Nodup)
    (hk : (formation.map (fun pc => pc.1)).Nodup)
    (s : List SCand) (hs : build_sample_squad cs budget formation = some s) :
    sumCost s ≤ budget ∧ (s.map (fun r => r.webName)).Nodup ∧
      ∀ pc ∈ formation, (s.filter (fun r => r.position == some pc.1)).length =
        min pc.2 ((cs.filter (fun c => c.position == some pc.1)).length) := by
  by_cases hf0 : formation = []
  · rw [show build_sample_squad cs budget formation = none by
      simp [build_sample_squad, hf0]] at hs
    exact absurd hs (by simp)
  · by_cases hlt : budget <
        sumCost (repairLoop (extrasOf cs formation) budget 200 (squad0Of cs formation))
    · rw [show build_sample_squad cs budget formation = none by
        simp [build_sample_squad, List.isEmpty_iff, hf0, hlt]] at hs
      exact absurd hs (by simp)
    · rw [show build_sample_squad cs budget formation =
          some (repairLoop (extrasOf cs formation) budget 200 (squad0Of cs formation)) by
        simp [build_sample_squad, List.isEmpty_iff, hf0, hlt]] at hs
      have hseq := Option.some.inj hs
      have h0 : (((squad0Of cs formation).map (fun r => r.webName)).Nodup ∧
          ∀ pc ∈ formation, (squad0Of cs formation).countP
              (fun r => r.position == some pc.1) =
            min pc.2 ((cs.filter (fun c => c.position == some pc.1)).length)) := by
        constructor
        · rw [squad0_names]; exact flatPick_names_nodup hn hk
        · intro pc hpc
          rw [squad0_countP]
          exact flatPick_countP hk pc hpc
      have hinv := repairLoop_preserves cs formation budget 200 _ h0
      rw [hseq] at hinv hlt
      refine ⟨le_of_not_lt hlt, hinv.1, fun pc hpc => ?_⟩
      rw [← List.countP_eq_length_filter]
      exact hinv.2 pc hpc

/-- Claim C1 witness: the one-goalkeeper pool with a one-position formation
returns a squad satisfying the amended structure. -/
theorem claim1_squad_structure_witness :
    (exC1.map (fun c => c.webName)).Nodup ∧
    (exF1w.map (fun pc => pc.1)).Nodup ∧
    build_sample_squad exC1 100 exF1w = some exSquad1 ∧
    (sumCost exSquad1 ≤ 100 ∧ (exSquad1.map (fun r => r.webName)).Nodup ∧
      ∀ pc ∈ exF1w, (exSquad1.filter (fun r => r.position == some pc.1)).length =
        min pc.2 ((exC1.filter (fun c => c.position == some pc.1)).length)) :=
  ⟨by decide, by decide, by with_unfolding_all decide,
   claim1_squad_structure exC1 100 exF1w (by decide) (by decide) exSquad1
     (by with_unfolding_all decide)⟩

end FPLSpec
